import Mathlib

/-!
Shallow embedding of the Brawl Stars memory card game (src/card.py,
src/game_manager.py, src/game_manager_match.py), together with proofs
about its state machines.

Modelling conventions:
* Wall-clock time (`time.time()`) is a rational number passed as an
  explicit parameter to every operation that reads the clock.
* `random.shuffle` is modelled by oracle functions `List String → List String`
  passed to the setup operations; theorems that need randomness facts
  assume the oracle returns a permutation of its input.
* `random.choice` is modelled by an oracle index `k : Nat`; the chosen
  element is the one at position `k % length`.  `random.choice []` raises
  in Python, so operations that may perform it return `Option`.
* Python object references inside `flipped_cards` are modelled as indices
  into the `cards` list; mutating a referenced card is `List.set` at that
  index.
-/

namespace BrawlSpec

/-- A card (src/card.py, dataclass `Card`): character name, image paths,
position, size and the two mutable flags.  The pygame surfaces are
rendering-only and are not modelled. -/
structure Card where
  name : String
  imagePath : String
  backImagePath : String
  posX : Int
  posY : Int
  sizeW : Int
  sizeH : Int
  flipped : Bool := false
  matched : Bool := false
deriving Repr, DecidableEq

instance : Inhabited Card :=
  ⟨{ name := "", imagePath := "", backImagePath := "",
     posX := 0, posY := 0, sizeW := 0, sizeH := 0 }⟩

/-- Read a card from the board by index (a Python reference into the list). -/
def getCard (cards : List Card) (i : Nat) : Card :=
  cards.getD i default

/-- Card.flip: `if not self.matched: self.flipped = not self.flipped`. -/
def Card.flip (c : Card) : Card :=
  if c.matched then c else { c with flipped := !c.flipped }

/-- Card.contains_point: `card_x <= x <= card_x + w and card_y <= y <= card_y + h`. -/
def Card.containsPoint (c : Card) (p : Int × Int) : Bool :=
  decide (c.posX ≤ p.1) && decide (p.1 ≤ c.posX + c.sizeW) &&
    decide (c.posY ≤ p.2) && decide (p.2 ≤ c.posY + c.sizeH)

/-- The ten available characters (keys of `character_images` in
`_setup_cards`, in insertion order). -/
def characterNames : List String :=
  ["Spacesuit", "Colt", "Leon", "Nita", "Robo",
   "Figure1", "Figure2", "Figure3", "Figure4", "Figure5"]

/-- The `character_images` mapping of `_setup_cards` (paths relative to the
assets directory; the absolute prefix is irrelevant to the game logic). -/
def characterImages : List (String × String) :=
  [("Spacesuit", "assets/images/Brawl Stars Character in Spacesuit.png"),
   ("Colt", "assets/images/Brawl Stars Colt Action Pose.png"),
   ("Leon", "assets/images/Brawl Stars Leon Render.png"),
   ("Nita", "assets/images/Brawl Stars Nita and Bruce Costumes.png"),
   ("Robo", "assets/images/Brawl Stars Robo Rumble Brawler.png"),
   ("Figure1", "assets/images/ChatGPT Image May 2 2025 (1).png"),
   ("Figure2", "assets/images/ChatGPT Image May 2 2025 (2).png"),
   ("Figure3", "assets/images/ChatGPT Image May 2 2025 (3).png"),
   ("Figure4", "assets/images/ChatGPT Image May 2 2025 (4).png"),
   ("Figure5", "assets/images/ChatGPT Image May 2 2025.png")]

/-- Image lookup with the fallback path of `GameManager._setup_cards`
(`if char in character_images ... else placeholder`). -/
def gmImagePath (ch : String) : String :=
  match characterImages.find? (fun p => p.1 == ch) with
  | some p => p.2
  | none => "assets/images/" ++ (ch.toLower.replace " " "_") ++ ".png"

/-- Image lookup of `MatchGameManager._setup_cards`
(`character_images[char]`, a plain dict access; chars are always keys). -/
def mgmImagePath (ch : String) : String :=
  (((characterImages.find? (fun p => p.1 == ch)).map Prod.snd)).getD ""

def cardBackPath : String := "assets/images/card_back.png"

/-- GameManager `self.flip_delay = 1.5` seconds. -/
def flipDelay : ℚ := 3 / 2

/-- MatchGameManager `self.preview_duration = 5.0` seconds. -/
def previewDuration : ℚ := 5

/-- MatchGameManager `self.result_duration = 1.5` seconds. -/
def resultDuration : ℚ := 3 / 2

/-- State of `GameManager` (src/game_manager.py).  `flippedCards` holds
indices into `cards` (Python stores references to the card objects). -/
structure GameManager where
  screenW : Int
  screenH : Int
  characterCount : Nat
  cardW : Int
  cardH : Int
  padding : Int
  cards : List Card
  flippedCards : List Nat
  score : Nat
  attempts : Nat
  startTime : ℚ
  gameOver : Bool
  flipBackTime : ℚ
  waitingToFlipBack : Bool
  mismatchTime : ℚ
  isMismatch : Bool
deriving Repr, DecidableEq

/-- GameManager._setup_cards.  The two `random.shuffle` calls are the
oracles `sh1` (character order) and `sh2` (pair order). -/
def gmSetupCards (screenW screenH : Int) (characterCount : Nat)
    (cardW cardH padding : Int)
    (sh1 sh2 : List String → List String) : List Card :=
  let characters := sh1 characterNames
  let selectedChars := characters.take (min characterCount characters.length)
  let pairs := sh2 (selectedChars ++ selectedChars)
  let gridWidth : Nat := 5
  let gridHeight : Nat := (pairs.length + gridWidth - 1) / gridWidth
  let startX : Int := (screenW - ((cardW + padding) * gridWidth - padding)).fdiv 2
  let startY : Int := (screenH - ((cardH + padding) * gridHeight - padding)).fdiv 2
  pairs.enum.map (fun pr =>
    let row : Nat := pr.1 / gridWidth
    let col : Nat := pr.1 % gridWidth
    { name := pr.2, imagePath := gmImagePath pr.2, backImagePath := cardBackPath,
      posX := startX + col * (cardW + padding),
      posY := startY + row * (cardH + padding),
      sizeW := cardW, sizeH := cardH })

/-- GameManager.__init__ (t0 is the `time.time()` reading for `start_time`). -/
def GameManager.init (screenW screenH : Int) (characterCount : Nat)
    (cardW cardH padding : Int) (t0 : ℚ)
    (sh1 sh2 : List String → List String) : GameManager :=
  { screenW := screenW, screenH := screenH, characterCount := characterCount,
    cardW := cardW, cardH := cardH, padding := padding,
    cards := gmSetupCards screenW screenH characterCount cardW cardH padding sh1 sh2,
    flippedCards := [], score := 0, attempts := 0, startTime := t0,
    gameOver := false, flipBackTime := 0, waitingToFlipBack := false,
    mismatchTime := 0, isMismatch := false }

/-- Eligibility test of the `handle_click` loop:
`card.contains_point(position) and not card.flipped and not card.matched`. -/
def clickEligible (c : Card) (pos : Int × Int) : Bool :=
  c.containsPoint pos && !c.flipped && !c.matched

/-- Mutation `card.matched = True` through a reference, i.e. at an index. -/
def setCardMatched (cards : List Card) (i : Nat) : List Card :=
  cards.set i { getCard cards i with matched := true }

/-- Body of `if len(self.flipped_cards) == 2:` in `GameManager.handle_click`:
count the attempt, and on a name match award the point, mark both cards
matched (the `for card in self.flipped_cards` loop) and clear
`flipped_cards` (after which the loop breaks). -/
def GameManager.processTwo (s : GameManager) : GameManager :=
  let s1 := { s with attempts := s.attempts + 1 }
  match s1.flippedCards with
  | [a, b] =>
    if (getCard s1.cards a).name = (getCard s1.cards b).name then
      { s1 with score := s1.score + 1,
                cards := setCardMatched (setCardMatched s1.cards a) b,
                flippedCards := [], isMismatch := false }
    else s1
  | _ => s1

/-- The `for card in self.cards:` loop of `GameManager.handle_click`,
scanning from index `i`.  The `break` sits inside
`if len(self.flipped_cards) == 2`, so the loop stops only after a second
card has been flipped (or the list is exhausted). -/
def GameManager.clickLoop (pos : Int × Int) (s : GameManager) (i : Nat) :
    GameManager :=
  if h : i < s.cards.length then
    let c := getCard s.cards i
    if clickEligible c pos then
      let s1 : GameManager :=
        { s with cards := s.cards.set i c.flip,
                 flippedCards := s.flippedCards ++ [i] }
      if s1.flippedCards.length = 2 then s1.processTwo
      else GameManager.clickLoop pos s1 (i + 1)
    else GameManager.clickLoop pos s (i + 1)
  else s
termination_by s.cards.length - i
decreasing_by
  · simpa using Nat.sub_succ_lt_self _ _ h
  · exact Nat.sub_succ_lt_self _ _ h

/-- GameManager.handle_click. -/
def GameManager.handleClick (s : GameManager) (pos : Int × Int) : GameManager :=
  if s.gameOver = true ∨ 2 ≤ s.flippedCards.length ∨ s.waitingToFlipBack = true
  then s
  else GameManager.clickLoop pos s 0

/-- Mutation `card.flipped = False` through a reference, i.e. at an index. -/
def setCardUnflipped (cards : List Card) (i : Nat) : List Card :=
  cards.set i { getCard cards i with flipped := false }

/-- GameManager.update at clock reading `t`. -/
def GameManager.update (s : GameManager) (t : ℚ) : GameManager :=
  let s1 :=
    if s.flippedCards.length = 2 ∧
        (∀ i ∈ s.flippedCards, (getCard s.cards i).matched = false) then
      if s.waitingToFlipBack then
        if s.flipBackTime ≤ t then
          { s with cards := s.flippedCards.foldl setCardUnflipped s.cards,
                   flippedCards := [], waitingToFlipBack := false,
                   isMismatch := false }
        else s
      else
        { s with flipBackTime := t + flipDelay, waitingToFlipBack := true,
                 mismatchTime := t, isMismatch := true }
    else s
  if s1.cards.all (fun c => c.matched) then { s1 with gameOver := true } else s1

/-- GameManager.reset at clock reading `t` with fresh shuffle oracles. -/
def GameManager.reset (s : GameManager) (t : ℚ)
    (sh1 sh2 : List String → List String) : GameManager :=
  { s with flippedCards := [], score := 0, attempts := 0, startTime := t,
           gameOver := false,
           cards := gmSetupCards s.screenW s.screenH s.characterCount
                      s.cardW s.cardH s.padding sh1 sh2 }

/-- States of `GameManager` reachable through `__init__`, `handle_click`,
`update` and `reset`. -/
inductive GMReach : GameManager → Prop where
  | init : ∀ (screenW screenH : Int) (characterCount : Nat)
      (cardW cardH padding : Int) (t0 : ℚ)
      (sh1 sh2 : List String → List String),
      GMReach (GameManager.init screenW screenH characterCount
                 cardW cardH padding t0 sh1 sh2)
  | click : ∀ s pos, GMReach s → GMReach (s.handleClick pos)
  | update : ∀ s t, GMReach s → GMReach (s.update t)
  | reset : ∀ s t sh1 sh2, GMReach s → GMReach (s.reset t sh1 sh2)

/-- Sequences of `handle_click` / `update` calls (the in-round operations;
`reset` discards the board, so "forever" claims about a given card range
over these). -/
inductive GMPlaySeq : GameManager → GameManager → Prop where
  | refl : ∀ s, GMPlaySeq s s
  | click : ∀ s s1 pos, GMPlaySeq s s1 → GMPlaySeq s (s1.handleClick pos)
  | update : ∀ s s1 t, GMPlaySeq s s1 → GMPlaySeq s (s1.update t)

/-- State of `MatchGameManager` (src/game_manager_match.py). -/
structure MatchGameManager where
  screenW : Int
  screenH : Int
  characterCount : Nat
  cardW : Int
  cardH : Int
  padding : Int
  cards : List Card
  currentCard : Option Card
  previousCardName : Option String
  score : Nat
  totalRounds : Nat
  startTime : ℚ
  gameOver : Bool
  phase : String
  phaseTime : ℚ
  isCorrectMatch : Bool
deriving Repr, DecidableEq

/-- MatchGameManager._setup_cards: one card per selected character, all
set face up for the preview phase.  `sh1` is the `random.shuffle` oracle. -/
def mgmSetupCards (screenW screenH : Int) (characterCount : Nat)
    (cardW cardH padding : Int)
    (sh1 : List String → List String) : List Card :=
  let shuffled := sh1 characterNames
  let characters := shuffled.take (min characterCount shuffled.length)
  let gridWidth : Nat := 5
  let gridHeight : Nat := (characters.length + gridWidth - 1) / gridWidth
  let startX : Int := (screenW - ((cardW + padding) * gridWidth - padding)).fdiv 2
  let startY : Int :=
    (screenH - ((cardH + padding) * gridHeight - padding)).fdiv 2 + 150
  characters.enum.map (fun pr =>
    let row : Nat := pr.1 / gridWidth
    let col : Nat := pr.1 % gridWidth
    { name := pr.2, imagePath := mgmImagePath pr.2, backImagePath := cardBackPath,
      posX := startX + col * (cardW + padding),
      posY := startY + row * (cardH + padding),
      sizeW := cardW, sizeH := cardH,
      flipped := true })

/-- MatchGameManager.__init__ (t0 is the `time.time()` reading used for
both `start_time` and `phase_time`). -/
def MatchGameManager.init (screenW screenH : Int) (characterCount : Nat)
    (cardW cardH padding : Int) (t0 : ℚ)
    (sh1 : List String → List String) : MatchGameManager :=
  { screenW := screenW, screenH := screenH, characterCount := characterCount,
    cardW := cardW, cardH := cardH, padding := padding,
    cards := mgmSetupCards screenW screenH characterCount cardW cardH padding sh1,
    currentCard := none, previousCardName := none,
    score := 0, totalRounds := 0, startTime := t0, gameOver := false,
    phase := "preview", phaseTime := t0, isCorrectMatch := false }

/-- MatchGameManager._choose_target_card with choice oracle `k`
(`random.choice available` picks index `k % available.length`; on an empty
list `random.choice` raises, modelled as `none`).  Python truthiness of
`self.previous_card_name` is false for `None` and for the empty string. -/
def MatchGameManager.chooseTargetCard (s : MatchGameManager) (k : Nat) :
    Option MatchGameManager :=
  if s.cards = [] then some s
  else
    let available := s.cards
    let available :=
      match s.previousCardName with
      | some prev =>
        if prev ≠ "" ∧ 1 < available.length then
          available.filter (fun c : Card => c.name != prev)
        else available
      | none => available
    match available.get? (k % available.length) with
    | none => none
    | some src =>
      let cc : Card :=
        { name := src.name, imagePath := src.imagePath,
          backImagePath := src.backImagePath,
          posX := (s.screenW - s.cardW).fdiv 2, posY := 120,
          sizeW := s.cardW, sizeH := s.cardH,
          flipped := true }
      some { s with previousCardName := some src.name, currentCard := some cc }

/-- MatchGameManager.handle_click at clock reading `t` (used for
`phase_time`).  The loop breaks after the first card that contains the
click and is face down. -/
def MatchGameManager.handleClick (s : MatchGameManager) (pos : Int × Int)
    (t : ℚ) : MatchGameManager :=
  if s.phase ≠ "playing" ∨ s.gameOver = true then s
  else
    match s.cards.findIdx? (fun c => c.containsPoint pos && !c.flipped) with
    | none => s
    | some i =>
      let c := getCard s.cards i
      let s1 := { s with cards := s.cards.set i c.flip,
                         totalRounds := s.totalRounds + 1 }
      let s2 :=
        match s1.currentCard with
        | some cc =>
          if c.name = cc.name then
            { s1 with score := s1.score + 1, isCorrectMatch := true }
          else { s1 with isCorrectMatch := false }
        | none => { s1 with isCorrectMatch := false }
      { s2 with phase := "showing_result", phaseTime := t }

/-- MatchGameManager.update at clock reading `t`, with choice oracle `k`
for `_choose_target_card`. -/
def MatchGameManager.update (s : MatchGameManager) (t : ℚ) (k : Nat) :
    Option MatchGameManager :=
  let step1 : Option MatchGameManager :=
    if s.phase = "preview" then
      if previewDuration ≤ t - s.phaseTime then
        let s1 := { s with cards := s.cards.map (fun c : Card => { c with flipped := false }) }
        match s1.chooseTargetCard k with
        | none => none
        | some s2 => some { s2 with phase := "playing" }
      else some s
    else if s.phase = "showing_result" then
      if resultDuration ≤ t - s.phaseTime then
        let s1 := { s with cards := s.cards.map (fun c : Card => { c with flipped := false }),
                           currentCard := none, phase := "playing" }
        if s1.gameOver = false then s1.chooseTargetCard k else some s1
      else some s
    else some s
  match step1 with
  | none => none
  | some s1 =>
    if 10 ≤ s1.totalRounds ∧ s1.phase ≠ "game_over" then
      some { s1 with gameOver := true, phase := "game_over" }
    else some s1

/-- MatchGameManager.reset at clock reading `t` with a fresh shuffle oracle.
Note: `current_card` and `is_correct_match` are not reset by the source. -/
def MatchGameManager.reset (s : MatchGameManager) (t : ℚ)
    (sh1 : List String → List String) : MatchGameManager :=
  { s with score := 0, totalRounds := 0, startTime := t, gameOver := false,
           previousCardName := none, phase := "preview", phaseTime := t,
           cards := mgmSetupCards s.screenW s.screenH s.characterCount
                      s.cardW s.cardH s.padding sh1 }

/-- States of `MatchGameManager` reachable through `__init__`,
`handle_click`, `update` and `reset`. -/
inductive MGMReach : MatchGameManager → Prop where
  | init : ∀ (screenW screenH : Int) (characterCount : Nat)
      (cardW cardH padding : Int) (t0 : ℚ) (sh1 : List String → List String),
      MGMReach (MatchGameManager.init screenW screenH characterCount
                  cardW cardH padding t0 sh1)
  | click : ∀ s pos t, MGMReach s → MGMReach (s.handleClick pos t)
  | update : ∀ s t k s1, MGMReach s → s.update t k = some s1 → MGMReach s1
  | reset : ∀ s t sh1, MGMReach s → MGMReach (s.reset t sh1)

/-- A card that is face up and not yet matched. -/
def flippedUnmatched (c : Card) : Bool := c.flipped && !c.matched

/-- Inductive invariant of `GameManager`: `flipped_cards` is a duplicate-free
list of at most two valid indices, holding exactly the face-up unmatched
cards of the board. -/
def gmInv (s : GameManager) : Prop :=
  s.flippedCards.Nodup ∧
  s.flippedCards.length ≤ 2 ∧
  (∀ i ∈ s.flippedCards, i < s.cards.length ∧
      (getCard s.cards i).flipped = true ∧ (getCard s.cards i).matched = false) ∧
  (∀ i, i < s.cards.length → (getCard s.cards i).flipped = true →
      (getCard s.cards i).matched = false → i ∈ s.flippedCards)

/-- Inductive invariant of `MatchGameManager` for the round bound. -/
def mgmInv (s : MatchGameManager) : Prop :=
  s.totalRounds ≤ 10 ∧
  (s.phase = "playing" → s.gameOver = false → s.totalRounds < 10) ∧
  (s.phase = "game_over" → s.gameOver = true)

/-- A small concrete `GameManager` state used to exercise the theorems:
two face-up unmatched cards, both recorded in `flipped_cards`. -/
def gmPairBoard : GameManager :=
  { screenW := 800, screenH := 600, characterCount := 2, cardW := 10,
    cardH := 10, padding := 0,
    cards := [{ name := "A", imagePath := "", backImagePath := "",
                posX := 0, posY := 0, sizeW := 10, sizeH := 10,
                flipped := true },
              { name := "B", imagePath := "", backImagePath := "",
                posX := 20, posY := 0, sizeW := 10, sizeH := 10,
                flipped := true }],
    flippedCards := [0, 1], score := 0, attempts := 0, startTime := 0,
    gameOver := false, flipBackTime := 0, waitingToFlipBack := false,
    mismatchTime := 0, isMismatch := false }

/-- A concrete `GameManager` state whose two cards are already matched. -/
def gmMatchedBoard : GameManager :=
  { gmPairBoard with
      cards := [{ name := "A", imagePath := "", backImagePath := "",
                  posX := 0, posY := 0, sizeW := 10, sizeH := 10,
                  flipped := true, matched := true },
                { name := "A", imagePath := "", backImagePath := "",
                  posX := 20, posY := 0, sizeW := 10, sizeH := 10,
                  flipped := true, matched := true }],
      flippedCards := [] }

/-- A concrete `GameManager` state with one face-up card recorded in
`flipped_cards` and a second, face-down card of the same name at the
origin. -/
def gmSecondClickBoard : GameManager :=
  { gmPairBoard with
      cards := [{ name := "A", imagePath := "", backImagePath := "",
                  posX := 100, posY := 100, sizeW := 10, sizeH := 10,
                  flipped := true },
                { name := "A", imagePath := "", backImagePath := "",
                  posX := 0, posY := 0, sizeW := 10, sizeH := 10 }],
      flippedCards := [0] }

/-- A concrete `MatchGameManager` state with a previous target recorded. -/
def mgmWithPrev : MatchGameManager :=
  { MatchGameManager.init 800 600 5 150 200 30 0 id with
      previousCardName := some "Colt" }

/-! ### Basic lemmas about board access -/

theorem getCard_set (l : List Card) (i j : Nat) (c : Card) :
    getCard (l.set i c) j = if i = j ∧ i < l.length then c else getCard l j := by
  induction l generalizing i j with
  | nil => simp [getCard]
  | cons hd tl ih =>
    cases i with
    | zero =>
      cases j with
      | zero => simp [getCard]
      | succ j => simp [getCard]
    | succ i =>
      cases j with
      | zero => simp [getCard]
      | succ j =>
        simp only [List.set_cons_succ, getCard, List.getD_cons_succ,
          List.length_cons]
        change getCard (tl.set i c) j
          = if i + 1 = j + 1 ∧ i + 1 < tl.length + 1 then c else getCard tl j
        rw [ih i j]
        simp [Nat.succ_lt_succ_iff]

theorem getCard_eq_get {l : List Card} {a : Nat} (ha : a < l.length) :
    getCard l a = l.get ⟨a, ha⟩ := by
  simp [getCard, List.getD_eq_getElem?_getD, List.getElem?_eq_getElem ha]

theorem getCard_of_length_le {l : List Card} {a : Nat} (ha : l.length ≤ a) :
    getCard l a = default := by
  simp [getCard, List.getD_eq_getElem?_getD, List.getElem?_eq_none ha]

theorem flipped_lt_length {l : List Card} {i : Nat}
    (h : (getCard l i).flipped = true) : i < l.length := by
  by_contra hlt
  rw [getCard_of_length_le (Nat.le_of_not_lt hlt)] at h
  simp [default] at h

theorem matched_lt_length {l : List Card} {i : Nat}
    (h : (getCard l i).matched = true) : i < l.length := by
  by_contra hlt
  rw [getCard_of_length_le (Nat.le_of_not_lt hlt)] at h
  simp [default] at h

theorem card_set_matched_eta (c : Card) (h : c.matched = true) :
    { c with matched := true } = c := by
  cases c
  simp_all

theorem all_matched_eq_false {l : List Card} {a : Nat} (ha : a < l.length)
    (hm : (getCard l a).matched = false) :
    l.all (fun c => c.matched) = false := by
  by_contra hne
  have hall := Bool.not_eq_false _ |>.mp hne
  rw [List.all_eq_true] at hall
  have := hall (l.get ⟨a, ha⟩) (l.get_mem _ _)
  rw [getCard_eq_get ha, List.get_eq_getElem] at hm
  simp [hm] at this

theorem matched_setCardUnflipped (l : List Card) (i j : Nat) :
    (getCard (setCardUnflipped l i) j).matched = (getCard l j).matched := by
  unfold setCardUnflipped
  rw [getCard_set]
  split
  · next h => rw [h.1]
  · rfl

theorem length_setCardUnflipped (l : List Card) (i : Nat) :
    (setCardUnflipped l i).length = l.length := by
  simp [setCardUnflipped]

theorem flipped_setCardUnflipped_self {l : List Card} {i : Nat}
    (hi : i < l.length) : (getCard (setCardUnflipped l i) i).flipped = false := by
  unfold setCardUnflipped
  rw [getCard_set]
  simp [hi]

theorem getCard_setCardUnflipped_ne (l : List Card) {i j : Nat} (h : i ≠ j) :
    getCard (setCardUnflipped l i) j = getCard l j := by
  unfold setCardUnflipped
  rw [getCard_set]
  simp [h]

theorem clickEligible_iff {c : Card} {pos : Int × Int} :
    clickEligible c pos = true ↔
      c.containsPoint pos = true ∧ c.flipped = false ∧ c.matched = false := by
  simp [clickEligible, Bool.and_eq_true, and_assoc]

theorem length_setCardMatched (l : List Card) (i : Nat) :
    (setCardMatched l i).length = l.length := by
  simp [setCardMatched]

theorem getCard_setCardMatched_of_matched (l : List Card) (a : Nat) {i : Nat}
    (h : (getCard l i).matched = true) :
    getCard (setCardMatched l a) i = getCard l i := by
  unfold setCardMatched
  rw [getCard_set]
  split
  · next hc =>
    obtain ⟨rfl, -⟩ := hc
    exact card_set_matched_eta _ h
  · rfl

theorem matched_setCardMatched_self {l : List Card} {i : Nat}
    (hi : i < l.length) : (getCard (setCardMatched l i) i).matched = true := by
  unfold setCardMatched
  rw [getCard_set]
  simp [hi]

theorem getCard_setCardMatched_ne (l : List Card) {i j : Nat} (h : i ≠ j) :
    getCard (setCardMatched l i) j = getCard l j := by
  unfold setCardMatched
  rw [getCard_set]
  simp [h]

theorem matched_setCardMatched_mono {l : List Card} {i j : Nat}
    (h : (getCard l j).matched = true) :
    (getCard (setCardMatched l i) j).matched = true := by
  rw [getCard_setCardMatched_of_matched l i h]
  exact h

theorem length_foldl_unflip (idxs : List Nat) (l : List Card) :
    (idxs.foldl setCardUnflipped l).length = l.length := by
  induction idxs generalizing l with
  | nil => rfl
  | cons a rest ih => rw [List.foldl_cons, ih, length_setCardUnflipped]

theorem getCard_foldl_unflip_not_mem (idxs : List Nat) (l : List Card)
    {i : Nat} (h : i ∉ idxs) :
    getCard (idxs.foldl setCardUnflipped l) i = getCard l i := by
  induction idxs generalizing l with
  | nil => rfl
  | cons a rest ih =>
    have hne : a ≠ i := fun he => h (by rw [← he]; exact List.mem_cons_self a rest)
    rw [List.foldl_cons, ih _ (fun hm => h (List.mem_cons_of_mem a hm)),
      getCard_setCardUnflipped_ne _ hne]

theorem flipped_foldl_unflip_mem (idxs : List Nat) (l : List Card)
    {i : Nat} (hm : i ∈ idxs) (hi : i < l.length) :
    (getCard (idxs.foldl setCardUnflipped l) i).flipped = false := by
  induction idxs generalizing l with
  | nil => simp at hm
  | cons a rest ih =>
    rw [List.foldl_cons]
    by_cases hr : i ∈ rest
    · exact ih _ hr (by rw [length_setCardUnflipped]; exact hi)
    · have ha : i = a := by
        rcases List.mem_cons.mp hm with h | h
        · exact h
        · exact absurd h hr
      subst ha
      rw [getCard_foldl_unflip_not_mem rest _ hr]
      exact flipped_setCardUnflipped_self hi

theorem processTwo_matched_frozen (s : GameManager) {i : Nat}
    (h : (getCard s.cards i).matched = true) :
    getCard s.processTwo.cards i = getCard s.cards i := by
  unfold GameManager.processTwo
  dsimp only
  split
  · split
    · rw [getCard_setCardMatched_of_matched _ _ (matched_setCardMatched_mono h),
        getCard_setCardMatched_of_matched _ _ h]
    · rfl
  · rfl

theorem processTwo_inv (s : GameManager) (h : gmInv s) : gmInv s.processTwo := by
  obtain ⟨hnd, hle, hmem, hcomp⟩ := h
  unfold GameManager.processTwo
  dsimp only
  split
  · next a b hfc =>
    split
    · refine ⟨List.nodup_nil, by simp, by simp, ?_⟩
      intro i hi hf hm
      exfalso
      have ham : a ∈ s.flippedCards := by
        rw [hfc]; exact List.mem_cons_self _ _
      have hbm : b ∈ s.flippedCards := by
        rw [hfc]; exact List.mem_cons_of_mem _ (List.mem_cons_self _ _)
      have ha := hmem a ham
      have hb := hmem b hbm
      by_cases hib : i = b
      · subst hib
        have hmt : (getCard (setCardMatched (setCardMatched s.cards a) i)
            i).matched = true :=
          matched_setCardMatched_self (by rw [length_setCardMatched]; exact hb.1)
        rw [hm] at hmt
        exact Bool.false_ne_true hmt
      · by_cases hia : i = a
        · subst hia
          have heq : getCard (setCardMatched (setCardMatched s.cards i) b) i
              = getCard (setCardMatched s.cards i) i :=
            getCard_setCardMatched_ne _ (fun he => hib he.symm)
          have hmt : (getCard (setCardMatched s.cards i) i).matched = true :=
            matched_setCardMatched_self ha.1
          rw [heq, hmt] at hm
          simp at hm
        · have heq : getCard (setCardMatched (setCardMatched s.cards a) b) i
              = getCard s.cards i := by
            rw [getCard_setCardMatched_ne _ (fun he => hib he.symm),
              getCard_setCardMatched_ne _ (fun he => hia he.symm)]
          rw [heq] at hf hm
          have hilen : i < s.cards.length := by
            rwa [length_setCardMatched, length_setCardMatched] at hi
          have := hcomp i hilen hf hm
          rw [hfc] at this
          rcases List.mem_pair.mp this with h | h
          · exact hia h
          · exact hib h
    · exact ⟨hnd, hle, hmem, hcomp⟩
  · exact ⟨hnd, hle, hmem, hcomp⟩

theorem flip_of_unmatched_unflipped {c : Card} (hm : c.matched = false)
    (hf : c.flipped = false) : c.flip = { c with flipped := true } := by
  simp [Card.flip, hm, hf]

theorem gmInv_after_flip (s : GameManager) (pos : Int × Int) (j : Nat)
    (hj : j < s.cards.length)
    (helig : clickEligible (getCard s.cards j) pos = true)
    (h : gmInv s) (hlen1 : s.flippedCards.length ≤ 1) :
    gmInv { s with cards := s.cards.set j (getCard s.cards j).flip,
                   flippedCards := s.flippedCards ++ [j] } := by
  obtain ⟨hcont, hfl, hma⟩ := clickEligible_iff.mp helig
  obtain ⟨hnd, hle, hmem, hcomp⟩ := h
  have hjnot : j ∉ s.flippedCards := fun hm => by
    have := (hmem j hm).2.1
    rw [hfl] at this
    exact Bool.false_ne_true this
  have hflip : (getCard s.cards j).flip
      = { getCard s.cards j with flipped := true } :=
    flip_of_unmatched_unflipped hma hfl
  refine ⟨?_, ?_, ?_, ?_⟩
  · show (s.flippedCards ++ [j]).Nodup
    rw [List.nodup_append]
    refine ⟨hnd, List.nodup_singleton j, ?_⟩
    intro a ha hb
    rw [List.mem_singleton] at hb
    subst hb
    exact hjnot ha
  · show (s.flippedCards ++ [j]).length ≤ 2
    rw [List.length_append]
    simp only [List.length_singleton]
    omega
  · dsimp only
    intro m hm
    rcases List.mem_append.mp hm with hml | hmr
    · obtain ⟨h1, h2, h3⟩ := hmem m hml
      have hmj : j ≠ m := fun he => hjnot (he ▸ hml)
      have hget : getCard (s.cards.set j (getCard s.cards j).flip) m
          = getCard s.cards m := by
        rw [getCard_set]
        simp [hmj]
      refine ⟨by rw [List.length_set]; exact h1, ?_, ?_⟩
      · rw [hget]; exact h2
      · rw [hget]; exact h3
    · have hmj : m = j := by simpa using hmr
      subst hmj
      have hget : getCard (s.cards.set m (getCard s.cards m).flip) m
          = (getCard s.cards m).flip := by
        rw [getCard_set]
        simp [hj]
      refine ⟨by rw [List.length_set]; exact hj, ?_, ?_⟩
      · rw [hget, hflip]
      · rw [hget, hflip]
        exact hma
  · dsimp only
    intro m hmlt hfm hmm
    by_cases hmj : m = j
    · subst hmj
      exact List.mem_append.mpr (Or.inr (List.mem_singleton.mpr rfl))
    · have hne : ¬ (j = m) := fun he => hmj he.symm
      have hget : getCard (s.cards.set j (getCard s.cards j).flip) m
          = getCard s.cards m := by
        rw [getCard_set]
        simp [hne]
      rw [hget] at hfm hmm
      have hmlt2 : m < s.cards.length := by rwa [List.length_set] at hmlt
      exact List.mem_append.mpr (Or.inl (hcomp m hmlt2 hfm hmm))

theorem clickLoop_matched_frozen (pos : Int × Int) (s : GameManager) (j : Nat)
    {i : Nat} (h : (getCard s.cards i).matched = true) :
    getCard (GameManager.clickLoop pos s j).cards i = getCard s.cards i := by
  refine GameManager.clickLoop.induct pos
    (fun s j => (getCard s.cards i).matched = true →
      getCard (GameManager.clickLoop pos s j).cards i = getCard s.cards i)
    ?_ ?_ ?_ ?_ s j h
  · intro s j hlt c helig s1 hlen h
    have hcm : (getCard s.cards j).matched = false :=
      (clickEligible_iff.mp helig).2.2
    have hji : ¬ (j = i) := fun he => by
      rw [he] at hcm
      rw [hcm] at h
      exact Bool.false_ne_true h
    have hstep : getCard (s.cards.set j (getCard s.cards j).flip) i
        = getCard s.cards i := by
      rw [getCard_set]
      simp [hji]
    have hm1 : (getCard (s.cards.set j ((getCard s.cards j).flip)) i).matched
        = true := by
      rw [hstep]
      exact h
    rw [GameManager.clickLoop, dif_pos hlt]
    try dsimp only
    rw [if_pos helig]
    try dsimp only
    rw [if_pos hlen]
    exact (processTwo_matched_frozen _ hm1).trans hstep
  · intro s j hlt c helig s1 hlen ih h
    have hcm : (getCard s.cards j).matched = false :=
      (clickEligible_iff.mp helig).2.2
    have hji : ¬ (j = i) := fun he => by
      rw [he] at hcm
      rw [hcm] at h
      exact Bool.false_ne_true h
    have hstep : getCard (s.cards.set j (getCard s.cards j).flip) i
        = getCard s.cards i := by
      rw [getCard_set]
      simp [hji]
    have hm1 : (getCard (s.cards.set j ((getCard s.cards j).flip)) i).matched
        = true := by
      rw [hstep]
      exact h
    rw [GameManager.clickLoop, dif_pos hlt]
    try dsimp only
    rw [if_pos helig]
    try dsimp only
    rw [if_neg hlen]
    exact (ih hm1).trans hstep
  · intro s j hlt c helig ih h
    rw [GameManager.clickLoop, dif_pos hlt]
    try dsimp only
    rw [if_neg helig]
    exact ih h
  · intro s j hlt h
    rw [GameManager.clickLoop, dif_neg hlt]

theorem clickLoop_inv (pos : Int × Int) (s : GameManager) (j : Nat)
    (h : gmInv s) (hlen1 : s.flippedCards.length ≤ 1) :
    gmInv (GameManager.clickLoop pos s j) := by
  refine GameManager.clickLoop.induct pos
    (fun s j => gmInv s → s.flippedCards.length <= 1 →
      gmInv (GameManager.clickLoop pos s j))
    ?_ ?_ ?_ ?_ s j h hlen1
  · intro s j hlt c helig s1 hlen h hlen1
    rw [GameManager.clickLoop, dif_pos hlt]
    try dsimp only
    rw [if_pos helig]
    try dsimp only
    rw [if_pos hlen]
    exact processTwo_inv _ (gmInv_after_flip s pos j hlt helig h hlen1)
  · intro s j hlt c helig s1 hlen ih h hlen1
    rw [GameManager.clickLoop, dif_pos hlt]
    try dsimp only
    rw [if_pos helig]
    try dsimp only
    rw [if_neg hlen]
    have hlen2 : ¬ ((s.flippedCards ++ [j]).length = 2) := hlen
    have happ : (s.flippedCards ++ [j]).length = s.flippedCards.length + 1 := by
      simp
    exact ih (gmInv_after_flip s pos j hlt helig h hlen1)
      (show (s.flippedCards ++ [j]).length ≤ 1 by omega)
  · intro s j hlt c helig ih h hlen1
    rw [GameManager.clickLoop, dif_pos hlt]
    try dsimp only
    rw [if_neg helig]
    exact ih h hlen1
  · intro s j hlt h hlen1
    rw [GameManager.clickLoop, dif_neg hlt]
    exact h

theorem handleClick_inv (s : GameManager) (pos : Int × Int) (h : gmInv s) :
    gmInv (s.handleClick pos) := by
  unfold GameManager.handleClick
  split
  · exact h
  · next hcond =>
    have hlen1 : s.flippedCards.length ≤ 1 := by
      by_contra hgt
      exact hcond (Or.inr (Or.inl (by omega)))
    exact clickLoop_inv pos s 0 h hlen1

theorem handleClick_matched_frozen (s : GameManager) (pos : Int × Int)
    {i : Nat} (h : (getCard s.cards i).matched = true) :
    getCard (s.handleClick pos).cards i = getCard s.cards i := by
  unfold GameManager.handleClick
  split
  · rfl
  · exact clickLoop_matched_frozen pos s 0 h

theorem update_inv (s : GameManager) (t : ℚ) (h : gmInv s) :
    gmInv (s.update t) := by
  obtain ⟨hnd, hle, hmem, hcomp⟩ := h
  have key : ∀ s2 : GameManager, gmInv s2 →
      gmInv (if s2.cards.all (fun c => c.matched) then
        { s2 with gameOver := true } else s2) := by
    intro s2 h2
    split
    · exact h2
    · exact h2
  unfold GameManager.update
  apply key
  by_cases hg : s.flippedCards.length = 2 ∧
      ∀ i ∈ s.flippedCards, (getCard s.cards i).matched = false
  · rw [if_pos hg]
    by_cases hw : s.waitingToFlipBack = true
    · rw [if_pos hw]
      by_cases hd : s.flipBackTime ≤ t
      · rw [if_pos hd]
        refine ⟨List.nodup_nil, by simp, by simp, ?_⟩
        dsimp only
        intro i hlt hf hm
        exfalso
        have hlt2 : i < s.cards.length := by
          rwa [length_foldl_unflip] at hlt
        by_cases hifc : i ∈ s.flippedCards
        · have := flipped_foldl_unflip_mem _ _ hifc (hmem i hifc).1
          rw [this] at hf
          exact Bool.false_ne_true hf
        · rw [getCard_foldl_unflip_not_mem _ _ hifc] at hf hm
          exact hifc (hcomp i hlt2 hf hm)
      · rw [if_neg hd]
        exact ⟨hnd, hle, hmem, hcomp⟩
    · rw [if_neg hw]
      exact ⟨hnd, hle, hmem, hcomp⟩
  · rw [if_neg hg]
    exact ⟨hnd, hle, hmem, hcomp⟩

theorem gmSetupCards_flags (screenW screenH : Int) (characterCount : Nat)
    (cardW cardH padding : Int) (sh1 sh2 : List String → List String) :
    ∀ c ∈ gmSetupCards screenW screenH characterCount cardW cardH padding
      sh1 sh2, c.flipped = false ∧ c.matched = false := by
  intro c hc
  simp only [gmSetupCards, List.mem_map] at hc
  obtain ⟨pr, hpr, hceq⟩ := hc
  rw [← hceq]
  exact ⟨rfl, rfl⟩

theorem gmInv_of_empty_flipped (s : GameManager) (hfc : s.flippedCards = [])
    (hcards : ∀ c ∈ s.cards, c.flipped = false) : gmInv s := by
  refine ⟨by rw [hfc]; exact List.nodup_nil, by rw [hfc]; simp, ?_, ?_⟩
  · intro i hi
    rw [hfc] at hi
    simp at hi
  · intro i hlt hf hm
    exfalso
    have hmem2 : getCard s.cards i ∈ s.cards := by
      rw [getCard_eq_get hlt]
      exact List.get_mem _ _ _
    rw [hcards _ hmem2] at hf
    exact Bool.false_ne_true hf

theorem gmInv_reach {s : GameManager} (h : GMReach s) : gmInv s := by
  induction h with
  | init screenW screenH characterCount cardW cardH padding t0 sh1 sh2 =>
    exact gmInv_of_empty_flipped _ rfl
      (fun c hc => (gmSetupCards_flags screenW screenH characterCount cardW
        cardH padding sh1 sh2 c hc).1)
  | click s pos hs ih => exact handleClick_inv s pos ih
  | update s t hs ih => exact update_inv s t ih
  | reset s t sh1 sh2 hs ih =>
    exact gmInv_of_empty_flipped _ rfl
      (fun c hc => (gmSetupCards_flags s.screenW s.screenH s.characterCount
        s.cardW s.cardH s.padding sh1 sh2 c hc).1)

theorem update_matched_frozen (s : GameManager) (t : ℚ) {i : Nat}
    (h : (getCard s.cards i).matched = true) :
    getCard (s.update t).cards i = getCard s.cards i := by
  unfold GameManager.update
  dsimp only
  have key : ∀ s2 : GameManager,
      (if s2.cards.all (fun c => c.matched) then
        { s2 with gameOver := true } else s2).cards = s2.cards := by
    intro s2
    split <;> rfl
  rw [key]
  by_cases hg : s.flippedCards.length = 2 ∧
      ∀ m ∈ s.flippedCards, (getCard s.cards m).matched = false
  · rw [if_pos hg]
    by_cases hw : s.waitingToFlipBack = true
    · rw [if_pos hw]
      by_cases hd : s.flipBackTime ≤ t
      · rw [if_pos hd]
        dsimp only
        have hnot : i ∉ s.flippedCards := fun hmem => by
          rw [hg.2 i hmem] at h
          exact Bool.false_ne_true h
        exact getCard_foldl_unflip_not_mem _ _ hnot
      · rw [if_neg hd]
    · rw [if_neg hw]
  · rw [if_neg hg]

theorem countP_eq_range (l : List Card) (p : Card → Bool) :
    l.countP p
      = ((List.range l.length).filter (fun i => p (getCard l i))).length := by
  induction l with
  | nil => rfl
  | cons hd tl ih =>
    rw [List.countP_cons, List.length_cons, List.range_succ_eq_map,
      List.filter_cons, List.filter_map]
    have hpred : ((fun i => p (getCard (hd :: tl) i)) ∘ Nat.succ)
        = (fun i => p (getCard tl i)) := by
      funext m
      simp [Function.comp, getCard]
    rw [hpred]
    by_cases hph : p hd = true
    · rw [if_pos (show p (getCard (hd :: tl) 0) = true from hph), if_pos hph,
        List.length_cons, List.length_map, ih]
    · rw [if_neg (show ¬ (p (getCard (hd :: tl) 0) = true) from hph),
        if_neg hph, List.length_map, ih]
      omega

theorem countFU_le_two_of_inv (s : GameManager) (h : gmInv s) :
    s.cards.countP flippedUnmatched ≤ 2 := by
  obtain ⟨hnd, hle, hmem, hcomp⟩ := h
  rw [countP_eq_range]
  have hsub : ((List.range s.cards.length).filter
      (fun i => flippedUnmatched (getCard s.cards i))) ⊆ s.flippedCards := by
    intro i hi
    have hmf := List.mem_filter.mp hi
    have hlt := List.mem_range.mp hmf.1
    have hfu : (getCard s.cards i).flipped = true ∧
        (getCard s.cards i).matched = false := by
      have h2 := hmf.2
      simpa [flippedUnmatched, Bool.and_eq_true] using h2
    exact hcomp i hlt hfu.1 hfu.2
  have hndf := (List.nodup_range s.cards.length).filter
    (fun i => flippedUnmatched (getCard s.cards i))
  exact le_trans (List.subperm_of_subset hndf hsub).length_le hle

/-- C1 as stated is false for MatchGameManager: its initial state (preview
phase, reachable via `__init__` alone) has all five board cards face up and
unmatched, so five cards have flipped = True and matched = False at once. -/
theorem c1_counterexample :
    MGMReach (MatchGameManager.init 800 600 5 150 200 30 0 id) ∧
    (MatchGameManager.init 800 600 5 150 200 30 0 id).cards.countP
      flippedUnmatched = 5 :=
  ⟨MGMReach.init 800 600 5 150 200 30 0 id, by decide⟩

/-- C1 (amended): in every reachable state of `GameManager`, at most two
cards in the cards list have flipped = True and matched = False at once;
`MatchGameManager` violates this bound during its preview phase, where all
board cards are face up and unmatched. -/
theorem c1_gm_at_most_two_face_up (s : GameManager) (h : GMReach s) :
    s.cards.countP flippedUnmatched ≤ 2 :=
  countFU_le_two_of_inv s (gmInv_reach h)

theorem c1_witness :
    GMReach (GameManager.init 800 600 5 150 200 30 0 id id) ∧
    (GameManager.init 800 600 5 150 200 30 0 id id).cards.countP
      flippedUnmatched ≤ 2 :=
  ⟨GMReach.init 800 600 5 150 200 30 0 id id,
   c1_gm_at_most_two_face_up _ (GMReach.init 800 600 5 150 200 30 0 id id)⟩

/-- C2: once a Card's matched flag is True it is frozen: `Card.flip` is a
no-op on matched cards, and through any sequence of `handle_click` /
`update` calls the card keeps matched = True and its flipped field never
changes (its whole record is unchanged). -/
theorem c2_matched_card_frozen (s sEnd : GameManager) (i : Nat)
    (hm : (getCard s.cards i).matched = true) (hseq : GMPlaySeq s sEnd) :
    (∀ c : Card, c.matched = true → c.flip = c) ∧
    getCard sEnd.cards i = getCard s.cards i := by
  refine ⟨?_, ?_⟩
  · intro c hc
    unfold Card.flip
    rw [if_pos hc]
  · induction hseq with
    | refl => rfl
    | click s1 pos hs ih =>
      rw [handleClick_matched_frozen _ pos (by rw [ih]; exact hm), ih]
    | update s1 t hs ih =>
      rw [update_matched_frozen _ t (by rw [ih]; exact hm), ih]

theorem c2_witness :
    (getCard gmMatchedBoard.cards 0).matched = true ∧
    ((∀ c : Card, c.matched = true → c.flip = c) ∧
     getCard (gmMatchedBoard.handleClick (5, 5)).cards 0
       = getCard gmMatchedBoard.cards 0) :=
  ⟨rfl, c2_matched_card_frozen gmMatchedBoard _ 0 rfl
    (GMPlaySeq.click _ _ (5, 5) (GMPlaySeq.refl _))⟩

/-- C5: MatchGameManager accepts click input only in the playing phase: for
every click position, if phase is not "playing" or game_over is True,
handle_click leaves the entire manager state unchanged. -/
theorem c5_click_only_in_playing_phase (s : MatchGameManager)
    (pos : Int × Int) (t : ℚ)
    (h : s.phase ≠ "playing" ∨ s.gameOver = true) :
    s.handleClick pos t = s := by
  unfold MatchGameManager.handleClick
  rw [if_pos h]

theorem c5_witness :
    ((MatchGameManager.init 800 600 5 150 200 30 0 id).handleClick (0, 0) 1
      = MatchGameManager.init 800 600 5 150 200 30 0 id) :=
  c5_click_only_in_playing_phase _ (0, 0) 1 (Or.inl (by decide))

/-- C3: GameManager's mismatch hide transition is gated by a wall-clock
deadline.  With exactly two unmatched flipped cards (indices a, b), the
first update (waiting_to_flip_back still False) arms the timer at
t + flip_delay and raises waiting_to_flip_back and is_mismatch; an update
at a time at or past the deadline flips both cards back, empties
flipped_cards and clears both flags; an update strictly before the
deadline changes nothing. -/
theorem c3_mismatch_timer (s : GameManager) (t : ℚ) (a b : Nat)
    (hfc : s.flippedCards = [a, b])
    (ha : a < s.cards.length) (hb : b < s.cards.length)
    (hma : (getCard s.cards a).matched = false)
    (hmb : (getCard s.cards b).matched = false) :
    (s.waitingToFlipBack = false →
      s.update t = { s with flipBackTime := t + flipDelay,
                            waitingToFlipBack := true, mismatchTime := t,
                            isMismatch := true }) ∧
    (s.waitingToFlipBack = true → s.flipBackTime ≤ t →
      s.update t = { s with
          cards := setCardUnflipped (setCardUnflipped s.cards a) b,
          flippedCards := [], waitingToFlipBack := false,
          isMismatch := false } ∧
      (getCard (s.update t).cards a).flipped = false ∧
      (getCard (s.update t).cards b).flipped = false) ∧
    (s.waitingToFlipBack = true → t < s.flipBackTime → s.update t = s) := by
  have hall : s.cards.all (fun c => c.matched) = false :=
    all_matched_eq_false ha hma
  have hguard : s.flippedCards.length = 2 ∧
      ∀ i ∈ s.flippedCards, (getCard s.cards i).matched = false := by
    rw [hfc]
    refine ⟨rfl, ?_⟩
    intro i hi
    rcases List.mem_pair.mp hi with h | h <;> subst h <;> assumption
  refine ⟨?_, ?_, ?_⟩
  · intro hw
    unfold GameManager.update
    rw [if_pos hguard, hw]
    simp only [Bool.false_eq_true, if_neg (by simp : ¬ (False : Prop))]
    simp [hall]
  · intro hw hd
    have hcards : s.flippedCards.foldl setCardUnflipped s.cards
        = setCardUnflipped (setCardUnflipped s.cards a) b := by
      rw [hfc]; rfl
    have haL : a < (setCardUnflipped (setCardUnflipped s.cards a) b).length := by
      rw [length_setCardUnflipped, length_setCardUnflipped]; exact ha
    have hmaL : (getCard (setCardUnflipped (setCardUnflipped s.cards a) b) a).matched
        = false := by
      rw [matched_setCardUnflipped, matched_setCardUnflipped]; exact hma
    have hall2 : (setCardUnflipped (setCardUnflipped s.cards a) b).all
        (fun c => c.matched) = false := all_matched_eq_false haL hmaL
    have hupd : s.update t = { s with
        cards := setCardUnflipped (setCardUnflipped s.cards a) b,
        flippedCards := [], waitingToFlipBack := false, isMismatch := false } := by
      unfold GameManager.update
      rw [if_pos hguard, hw]
      simp only [if_pos trivial, if_pos hd, hcards]
      simp [hall2]
    refine ⟨hupd, ?_, ?_⟩
    · rw [hupd]
      by_cases hab : b = a
      · subst hab
        exact flipped_setCardUnflipped_self
          (by rw [length_setCardUnflipped]; exact ha)
      · rw [getCard_setCardUnflipped_ne _ hab]
        exact flipped_setCardUnflipped_self ha
    · rw [hupd]
      exact flipped_setCardUnflipped_self
        (by rw [length_setCardUnflipped]; exact hb)
  · intro hw hd
    unfold GameManager.update
    rw [if_pos hguard, hw]
    simp only [if_pos trivial, if_neg (not_le.mpr hd)]
    simp [hall]

theorem c3_witness :
    gmPairBoard.flippedCards = [0, 1] ∧
    0 < gmPairBoard.cards.length ∧ 1 < gmPairBoard.cards.length ∧
    (getCard gmPairBoard.cards 0).matched = false ∧
    (getCard gmPairBoard.cards 1).matched = false ∧
    (gmPairBoard.waitingToFlipBack = false →
      gmPairBoard.update 0 = { gmPairBoard with
          flipBackTime := 0 + flipDelay, waitingToFlipBack := true,
          mismatchTime := 0, isMismatch := true }) :=
  ⟨rfl, by decide, by decide, rfl, rfl,
   (c3_mismatch_timer gmPairBoard 0 0 1 rfl (by decide) (by decide)
      rfl rfl).1⟩

/-- C7: the board never holds more than 10 pairs: for every character_count,
`GameManager._setup_cards` builds exactly `2 * min(character_count, 10)`
cards (ten characters being available), hence at most 20. -/
theorem c7_board_size (screenW screenH : Int) (characterCount : Nat)
    (cardW cardH padding : Int) (sh1 sh2 : List String → List String)
    (h1 : ∀ l, List.Perm (sh1 l) l) (h2 : ∀ l, List.Perm (sh2 l) l) :
    (gmSetupCards screenW screenH characterCount cardW cardH padding
        sh1 sh2).length = 2 * min characterCount 10 ∧
    (gmSetupCards screenW screenH characterCount cardW cardH padding
        sh1 sh2).length ≤ 20 := by
  have hchars : (sh1 characterNames).length = 10 := by
    rw [(h1 characterNames).length_eq]; rfl
  have hlen : (gmSetupCards screenW screenH characterCount cardW cardH padding
      sh1 sh2).length = 2 * min characterCount 10 := by
    unfold gmSetupCards
    simp only [List.length_map, List.enum_length]
    rw [(h2 _).length_eq, List.length_append, List.length_take, hchars]
    omega
  exact ⟨hlen, by omega⟩

theorem c7_witness :
    (∀ l : List String, List.Perm (id l) l) ∧
    (gmSetupCards 800 600 7 150 200 30 id id).length = 2 * min 7 10 ∧
    (gmSetupCards 800 600 7 150 200 30 id id).length ≤ 20 :=
  ⟨fun l => List.Perm.refl l,
   c7_board_size 800 600 7 150 200 30 id id
     (fun l => List.Perm.refl l) (fun l => List.Perm.refl l)⟩

/-- C9: `_choose_target_card` never repeats the previous target: if
previous_card_name is set (non-None, non-empty) and some board card's name
differs from it, then for every outcome of the random choice the call
succeeds, the new current_card's name differs from the previous name, and
previous_card_name is updated to the new name. -/
theorem c9_no_repeat_target (s : MatchGameManager) (k : Nat) (p : String)
    (hp : s.previousCardName = some p) (hpne : p ≠ "")
    (c0 : Card) (hc0 : c0 ∈ s.cards) (hname : c0.name ≠ p) :
    ∃ s1 cc, s.chooseTargetCard k = some s1 ∧ s1.currentCard = some cc ∧
      cc.name ≠ p ∧ s1.previousCardName = some cc.name := by
  have hne : s.cards ≠ [] := List.ne_nil_of_mem hc0
  unfold MatchGameManager.chooseTargetCard
  rw [if_neg hne, hp]
  dsimp only
  by_cases hlen : 1 < s.cards.length
  · rw [if_pos ⟨hpne, hlen⟩]
    have hc0f : c0 ∈ s.cards.filter (fun c : Card => c.name != p) :=
      List.mem_filter.mpr ⟨hc0, by simpa [bne_iff_ne] using hname⟩
    have hlpos : 0 < (s.cards.filter (fun c : Card => c.name != p)).length :=
      List.length_pos.mpr (List.ne_nil_of_mem hc0f)
    have hidx : k % (s.cards.filter (fun c : Card => c.name != p)).length
        < (s.cards.filter (fun c : Card => c.name != p)).length :=
      Nat.mod_lt _ hlpos
    rw [List.get?_eq_get hidx]
    refine ⟨_, _, rfl, rfl, ?_, rfl⟩
    have hmem := List.get_mem (s.cards.filter (fun c : Card => c.name != p))
      _ hidx
    have := List.mem_filter.mp hmem
    simpa [bne_iff_ne] using this.2
  · rw [if_neg (fun h => hlen h.2)]
    have h1 : s.cards.length = 1 := by
      have := List.length_pos.mpr hne
      omega
    obtain ⟨x, hx⟩ := List.length_eq_one.mp h1
    have hcx : c0 = x := by
      rw [hx] at hc0
      simpa using hc0
    rw [hx]
    have : k % (1 : Nat) = 0 := Nat.mod_one k
    simp only [List.length_cons, List.length_nil, this, List.get?]
    exact ⟨_, _, rfl, rfl, by simpa [← hcx] using hname, rfl⟩

theorem c9_witness :
    ∃ s1 cc, mgmWithPrev.chooseTargetCard 3 = some s1 ∧
      s1.currentCard = some cc ∧ cc.name ≠ "Colt" ∧
      s1.previousCardName = some cc.name :=
  c9_no_repeat_target mgmWithPrev 3 "Colt" rfl (by decide)
    (getCard mgmWithPrev.cards 0) (by decide) (by decide)

/-- C10: `GameManager.reset` clears flipped_cards, score, attempts,
start_time and game_over and rebuilds the board, but leaves
waiting_to_flip_back, is_mismatch and flip_back_time untouched; if
waiting_to_flip_back was True at the reset, every handle_click on the new
board is a no-op. -/
theorem c10_reset_keeps_wait_flags (s : GameManager) (t : ℚ)
    (sh1 sh2 : List String → List String) :
    ((s.reset t sh1 sh2).waitingToFlipBack = s.waitingToFlipBack ∧
     (s.reset t sh1 sh2).isMismatch = s.isMismatch ∧
     (s.reset t sh1 sh2).flipBackTime = s.flipBackTime) ∧
    ((s.reset t sh1 sh2).flippedCards = [] ∧ (s.reset t sh1 sh2).score = 0 ∧
     (s.reset t sh1 sh2).attempts = 0 ∧ (s.reset t sh1 sh2).startTime = t ∧
     (s.reset t sh1 sh2).gameOver = false ∧
     (s.reset t sh1 sh2).cards = gmSetupCards s.screenW s.screenH
        s.characterCount s.cardW s.cardH s.padding sh1 sh2) ∧
    (s.waitingToFlipBack = true →
      ∀ pos, (s.reset t sh1 sh2).handleClick pos = s.reset t sh1 sh2) := by
  refine ⟨⟨rfl, rfl, rfl⟩, ⟨rfl, rfl, rfl, rfl, rfl, rfl⟩, ?_⟩
  intro hw pos
  unfold GameManager.handleClick
  rw [if_pos (Or.inr (Or.inr
    (show (s.reset t sh1 sh2).waitingToFlipBack = true from hw)))]

theorem c10_witness :
    (({ GameManager.init 800 600 5 150 200 30 0 id id with
          waitingToFlipBack := true } : GameManager).reset 1 id id
        |>.waitingToFlipBack) = true ∧
    (∀ pos, (({ GameManager.init 800 600 5 150 200 30 0 id id with
          waitingToFlipBack := true } : GameManager).reset 1 id id).handleClick
        pos
      = ({ GameManager.init 800 600 5 150 200 30 0 id id with
          waitingToFlipBack := true } : GameManager).reset 1 id id) :=
  ⟨(c10_reset_keeps_wait_flags _ 1 id id).1.1,
   (c10_reset_keeps_wait_flags _ 1 id id).2.2 rfl⟩

theorem clickLoop_skip_one (pos : Int × Int) (s : GameManager) (j : Nat)
    (h : j < s.cards.length →
      ¬ (clickEligible (getCard s.cards j) pos = true)) :
    GameManager.clickLoop pos s j = GameManager.clickLoop pos s (j + 1) := by
  by_cases hlt : j < s.cards.length
  · rw [GameManager.clickLoop, dif_pos hlt]
    try dsimp only
    rw [if_neg (h hlt)]
  · rw [GameManager.clickLoop, dif_neg hlt,
      GameManager.clickLoop, dif_neg (fun hl => hlt (by omega))]

theorem clickLoop_skip (pos : Int × Int) (s : GameManager) (i : Nat)
    (hall : ∀ j < i, ¬ (clickEligible (getCard s.cards j) pos = true)) :
    GameManager.clickLoop pos s 0 = GameManager.clickLoop pos s i := by
  induction i with
  | zero => rfl
  | succ n ih =>
    rw [ih (fun j hj => hall j (by omega)),
      clickLoop_skip_one pos s n (fun _ => hall n (by omega))]

/-- C6: matching in GameManager is equality of the name fields.  When a
click flips a second card (one card is already in flipped_cards, the click
lands first on eligible card i), attempts increases by exactly 1; if the
two cards' names are equal, score increases by 1, both cards are marked
matched and flipped_cards is emptied; if the names differ, the score and
every matched flag are unchanged. -/
theorem c6_second_flip_matching (s : GameManager) (pos : Int × Int)
    (a i : Nat)
    (hfc : s.flippedCards = [a])
    (hgo : s.gameOver = false) (hw : s.waitingToFlipBack = false)
    (hi : i < s.cards.length)
    (helig : clickEligible (getCard s.cards i) pos = true)
    (hfirst : ∀ j < i, ¬ (clickEligible (getCard s.cards j) pos = true))
    (hai : (getCard s.cards a).flipped = true) :
    (s.handleClick pos).attempts = s.attempts + 1 ∧
    ((getCard s.cards a).name = (getCard s.cards i).name →
      (s.handleClick pos).score = s.score + 1 ∧
      (getCard (s.handleClick pos).cards a).matched = true ∧
      (getCard (s.handleClick pos).cards i).matched = true ∧
      (s.handleClick pos).flippedCards = []) ∧
    ((getCard s.cards a).name ≠ (getCard s.cards i).name →
      (s.handleClick pos).score = s.score ∧
      ∀ j, (getCard (s.handleClick pos).cards j).matched
        = (getCard s.cards j).matched) := by
  have ha : a < s.cards.length := flipped_lt_length hai
  obtain ⟨hcont, hcf, hcm⟩ := clickEligible_iff.mp helig
  have hia : ¬ (i = a) := fun he => by
    rw [he] at hcf
    rw [hcf] at hai
    exact Bool.false_ne_true hai
  have hguard : ¬ (s.gameOver = true ∨ 2 ≤ s.flippedCards.length ∨
      s.waitingToFlipBack = true) := by
    rw [hfc, hgo, hw]
    simp
  have hclick : s.handleClick pos = GameManager.clickLoop pos s i := by
    unfold GameManager.handleClick
    rw [if_neg hguard]
    exact clickLoop_skip pos s i hfirst
  have happ : s.flippedCards ++ [i] = [a, i] := by rw [hfc]; rfl
  have hlen2 : (s.flippedCards ++ [i]).length = 2 := by rw [happ]; rfl
  have hstep : GameManager.clickLoop pos s i = GameManager.processTwo
      { s with cards := s.cards.set i (getCard s.cards i).flip,
               flippedCards := [a, i] } := by
    rw [GameManager.clickLoop, dif_pos hi]
    try dsimp only
    rw [if_pos helig]
    try dsimp only
    rw [if_pos hlen2, happ]
  have hLa : getCard (s.cards.set i (getCard s.cards i).flip) a
      = getCard s.cards a := by
    rw [getCard_set]
    simp [hia]
  have hLi : getCard (s.cards.set i (getCard s.cards i).flip) i
      = { getCard s.cards i with flipped := true } := by
    rw [getCard_set]
    simp only [hi, and_true, if_pos]
    rw [flip_of_unmatched_unflipped hcm hcf]
  rw [hclick, hstep]
  unfold GameManager.processTwo
  try dsimp only
  refine ⟨?_, ?_, ?_⟩
  · split <;> rfl
  · intro heq
    rw [if_pos (show
        (getCard (s.cards.set i (getCard s.cards i).flip) a).name
          = (getCard (s.cards.set i (getCard s.cards i).flip) i).name by
      rw [hLa, hLi]
      exact heq)]
    try dsimp only
    refine ⟨rfl, ?_, ?_, rfl⟩
    · rw [getCard_setCardMatched_ne _ hia]
      exact matched_setCardMatched_self
        (by rw [List.length_set]; exact ha)
    · exact matched_setCardMatched_self
        (by rw [length_setCardMatched, List.length_set]; exact hi)
  · intro hne
    rw [if_neg (show ¬ ((getCard (s.cards.set i (getCard s.cards i).flip)
        a).name = (getCard (s.cards.set i (getCard s.cards i).flip) i).name)
      by rw [hLa, hLi]; exact hne)]
    try dsimp only
    refine ⟨rfl, ?_⟩
    intro j
    by_cases hji : j = i
    · subst hji
      rw [hLi]
    · have hij2 : ¬ (i = j) := fun he => hji he.symm
      have : getCard (s.cards.set i (getCard s.cards i).flip) j
          = getCard s.cards j := by
        rw [getCard_set]
        simp [hij2]
      rw [this]

theorem c6_witness :
    (gmSecondClickBoard.flippedCards = [0] ∧
     clickEligible (getCard gmSecondClickBoard.cards 1) (5, 5) = true) ∧
    ((gmSecondClickBoard.handleClick (5, 5)).attempts
        = gmSecondClickBoard.attempts + 1 ∧
     ((getCard gmSecondClickBoard.cards 0).name
          = (getCard gmSecondClickBoard.cards 1).name →
       (gmSecondClickBoard.handleClick (5, 5)).score
          = gmSecondClickBoard.score + 1 ∧
       (getCard (gmSecondClickBoard.handleClick (5, 5)).cards 0).matched
          = true ∧
       (getCard (gmSecondClickBoard.handleClick (5, 5)).cards 1).matched
          = true ∧
       (gmSecondClickBoard.handleClick (5, 5)).flippedCards = []) ∧
     ((getCard gmSecondClickBoard.cards 0).name
          ≠ (getCard gmSecondClickBoard.cards 1).name →
       (gmSecondClickBoard.handleClick (5, 5)).score
          = gmSecondClickBoard.score ∧
       ∀ j, (getCard (gmSecondClickBoard.handleClick (5, 5)).cards j).matched
          = (getCard gmSecondClickBoard.cards j).matched)) :=
  ⟨⟨rfl, by decide⟩,
   c6_second_flip_matching gmSecondClickBoard (5, 5) 0 1 rfl rfl rfl
     (by decide) (by decide) (by decide) rfl⟩

theorem chooseTargetCard_frame (s : MatchGameManager) (k : Nat)
    (s1 : MatchGameManager) (h : s.chooseTargetCard k = some s1) :
    s1.cards = s.cards ∧ s1.totalRounds = s.totalRounds ∧
    s1.phase = s.phase ∧ s1.gameOver = s.gameOver := by
  unfold MatchGameManager.chooseTargetCard at h
  split at h
  · obtain rfl := Option.some.inj h
    exact ⟨rfl, rfl, rfl, rfl⟩
  · dsimp only at h
    split at h
    · exact absurd h (by simp)
    · obtain rfl := Option.some.inj h
      exact ⟨rfl, rfl, rfl, rfl⟩

theorem chooseTargetCard_none_prev (s : MatchGameManager) (k : Nat)
    (hne : s.cards ≠ []) (hprev : s.previousCardName = none) :
    ∃ src ∈ s.cards, s.chooseTargetCard k
      = some { s with previousCardName := some src.name,
                      currentCard := some
                        { name := src.name,
                          imagePath := src.imagePath,
                          backImagePath := src.backImagePath,
                          posX := (s.screenW - s.cardW).fdiv 2, posY := 120,
                          sizeW := s.cardW, sizeH := s.cardH,
                          flipped := true, matched := false } } := by
  unfold MatchGameManager.chooseTargetCard
  rw [if_neg hne, hprev]
  dsimp only
  have hlpos : 0 < s.cards.length := List.length_pos.mpr hne
  have hidx : k % s.cards.length < s.cards.length := Nat.mod_lt _ hlpos
  rw [List.get?_eq_get hidx]
  exact ⟨_, List.get_mem _ _ _, rfl⟩

theorem mgmHandleClick_cases (s : MatchGameManager) (pos : Int × Int)
    (t : ℚ) :
    s.handleClick pos t = s ∨
    (s.phase = "playing" ∧ s.gameOver = false ∧
     (s.handleClick pos t).totalRounds = s.totalRounds + 1 ∧
     (s.handleClick pos t).phase = "showing_result") := by
  unfold MatchGameManager.handleClick
  split
  · exact Or.inl rfl
  · next hcond =>
    push_neg at hcond
    obtain ⟨hph, hgo⟩ := hcond
    have hgof : s.gameOver = false := Bool.eq_false_iff.mpr hgo
    split
    · exact Or.inl rfl
    · refine Or.inr ⟨hph, hgof, ?_, ?_⟩
      · try dsimp only
        all_goals first
        | rfl
        | (split <;> first
            | rfl
            | (split <;> rfl))
      · dsimp only

theorem mgmUpdate_step1_facts (s : MatchGameManager) (t : ℚ) (k : Nat)
    (sOut : MatchGameManager) (hupd : s.update t k = some sOut)
    (hgo : s.phase = "game_over" → s.gameOver = true) :
    ∃ s2 : MatchGameManager,
      s2.totalRounds = s.totalRounds ∧
      (s2.phase = "game_over" → s2.gameOver = true) ∧
      (if 10 ≤ s2.totalRounds ∧ s2.phase ≠ "game_over" then
          some { s2 with gameOver := true, phase := "game_over" }
        else some s2) = some sOut := by
  unfold MatchGameManager.update at hupd
  dsimp only at hupd
  split at hupd
  · simp at hupd
  · next s2 heq =>
    refine ⟨s2, ?_, ?_, hupd⟩ <;> clear hupd
    all_goals (
      by_cases hpv : s.phase = "preview"
      · rw [if_pos hpv] at heq
        by_cases htm : previewDuration ≤ t - s.phaseTime
        · rw [if_pos htm] at heq
          split at heq
          · exact absurd heq (by simp)
          · next s3 hch =>
            obtain rfl := Option.some.inj heq
            obtain ⟨hc, hr, hp2, hg⟩ := chooseTargetCard_frame _ k s3 hch
            first
            | exact hr
            | (intro hx
               exact absurd (show ("playing" : String) = "game_over" from hx)
                 (by decide))
        · rw [if_neg htm] at heq
          obtain rfl := Option.some.inj heq
          first
          | rfl
          | exact hgo
      · rw [if_neg hpv] at heq
        by_cases hsr : s.phase = "showing_result"
        · rw [if_pos hsr] at heq
          by_cases htm : resultDuration ≤ t - s.phaseTime
          · rw [if_pos htm] at heq
            by_cases hgof : s.gameOver = false
            · rw [if_pos hgof] at heq
              obtain ⟨hc, hr, hp2, hg⟩ := chooseTargetCard_frame _ k s2 heq
              first
              | exact hr
              | (intro hx
                 rw [hp2] at hx
                 exact absurd (show ("playing" : String) = "game_over" from hx)
                   (by decide))
            · rw [if_neg hgof] at heq
              obtain rfl := Option.some.inj heq
              first
              | rfl
              | (intro hx
                 exact absurd (show ("playing" : String) = "game_over" from hx)
                   (by decide))
          · rw [if_neg htm] at heq
            obtain rfl := Option.some.inj heq
            first
            | rfl
            | exact hgo
        · rw [if_neg hsr] at heq
          obtain rfl := Option.some.inj heq
          first
          | rfl
          | exact hgo)

theorem mgmInv_update (s : MatchGameManager) (t : ℚ) (k : Nat)
    (sOut : MatchGameManager) (hupd : s.update t k = some sOut)
    (h : mgmInv s) : mgmInv sOut := by
  obtain ⟨h10, hplay, hgo⟩ := h
  obtain ⟨s2, hr2, hgo2, hend⟩ := mgmUpdate_step1_facts s t k sOut hupd hgo
  split at hend
  · next hc =>
    obtain rfl := Option.some.inj hend
    refine ⟨show s2.totalRounds ≤ 10 by rw [hr2]; exact h10, ?_, ?_⟩
    · intro hx _
      exact absurd (show ("game_over" : String) = "playing" from hx)
        (by decide)
    · intro _
      rfl
  · next hc =>
    obtain rfl := Option.some.inj hend
    push_neg at hc
    refine ⟨by rw [hr2]; exact h10, ?_, hgo2⟩
    intro hph _
    by_contra hlt
    push_neg at hlt
    have hph2 := hc hlt
    rw [hph] at hph2
    exact absurd hph2 (by decide)

theorem mgmInv_handleClick (s : MatchGameManager) (pos : Int × Int) (t : ℚ)
    (h : mgmInv s) : mgmInv (s.handleClick pos t) := by
  obtain ⟨h10, hplay, hgo⟩ := h
  rcases mgmHandleClick_cases s pos t with he | ⟨hph, hgof, hr, hphr⟩
  · rw [he]
    exact ⟨h10, hplay, hgo⟩
  · refine ⟨?_, ?_, ?_⟩
    · rw [hr]
      have := hplay hph hgof
      omega
    · intro hx _
      rw [hphr] at hx
      exact absurd hx (by decide)
    · intro hx
      rw [hphr] at hx
      exact absurd hx (by decide)

theorem mgmInv_reach {s : MatchGameManager} (h : MGMReach s) : mgmInv s := by
  induction h with
  | init screenW screenH characterCount cardW cardH padding t0 sh1 =>
    refine ⟨?_, ?_, ?_⟩
    · show (0 : Nat) ≤ 10
      decide
    · intro _ _
      show (0 : Nat) < 10
      decide
    · intro hx
      exact absurd (show ("preview" : String) = "game_over" from hx)
        (by decide)
  | click s pos t hs ih => exact mgmInv_handleClick s pos t ih
  | update s t k s1 hs hupd ih => exact mgmInv_update s t k s1 hupd ih
  | reset s t sh1 hs ih =>
    refine ⟨?_, ?_, ?_⟩
    · show (0 : Nat) ≤ 10
      decide
    · intro _ _
      show (0 : Nat) < 10
      decide
    · intro hx
      exact absurd (show ("preview" : String) = "game_over" from hx)
        (by decide)

/-- C8: total_rounds never exceeds 10 in any reachable MatchGameManager
state; handle_click leaves total_rounds unchanged outside the playing
phase; once total_rounds has reached 10, any update sets game_over and the
game_over phase; and with game_over set, handle_click is a no-op. -/
theorem c8_rounds_never_exceed_ten (s : MatchGameManager) (h : MGMReach s) :
    s.totalRounds ≤ 10 ∧
    (s.phase ≠ "playing" → ∀ pos t, (s.handleClick pos t).totalRounds
        = s.totalRounds) ∧
    (10 ≤ s.totalRounds → ∀ t k sOut, s.update t k = some sOut →
        sOut.gameOver = true ∧ sOut.phase = "game_over") ∧
    (s.gameOver = true → ∀ pos t, s.handleClick pos t = s) := by
  have hinv := mgmInv_reach h
  refine ⟨hinv.1, ?_, ?_, ?_⟩
  · intro hph pos t
    unfold MatchGameManager.handleClick
    rw [if_pos (Or.inl hph)]
  · intro hr t k sOut hupd
    obtain ⟨s2, hr2, hgo2, hend⟩ :=
      mgmUpdate_step1_facts s t k sOut hupd hinv.2.2
    have hr10 : 10 ≤ s2.totalRounds := by rw [hr2]; exact hr
    split at hend
    · obtain rfl := Option.some.inj hend
      exact ⟨rfl, rfl⟩
    · next hc =>
      obtain rfl := Option.some.inj hend
      push_neg at hc
      have hph2 := hc hr10
      exact ⟨hgo2 hph2, hph2⟩
  · intro hgof pos t
    unfold MatchGameManager.handleClick
    rw [if_pos (Or.inr hgof)]

theorem c8_witness :
    MGMReach (MatchGameManager.init 800 600 5 150 200 30 0 id) ∧
    (MatchGameManager.init 800 600 5 150 200 30 0 id).totalRounds ≤ 10 :=
  ⟨MGMReach.init 800 600 5 150 200 30 0 id,
   (c8_rounds_never_exceed_ten _ (MGMReach.init 800 600 5 150 200 30 0 id)).1⟩

/-- C4: while phase is "preview" with previous target unset (as in every
reachable preview state) and rounds below 10, an update within
preview_duration = 5 seconds of phase_time changes nothing; the first
update at or past the deadline turns every board card face down, makes
current_card a face-up copy of some board card, and moves to the playing
phase. -/
theorem c4_preview_transition (s : MatchGameManager) (t : ℚ) (k : Nat)
    (hp : s.phase = "preview") (hr : s.totalRounds < 10)
    (hprev : s.previousCardName = none) (hne : s.cards ≠ []) :
    (t - s.phaseTime < previewDuration → s.update t k = some s) ∧
    (previewDuration ≤ t - s.phaseTime →
      ∃ sOut, s.update t k = some sOut ∧
        (∀ c ∈ sOut.cards, c.flipped = false) ∧
        sOut.phase = "playing" ∧
        ∃ cc, sOut.currentCard = some cc ∧ cc.flipped = true ∧
          ∃ c ∈ s.cards, cc.name = c.name ∧ cc.imagePath = c.imagePath ∧
            cc.backImagePath = c.backImagePath) := by
  constructor
  · intro htm
    unfold MatchGameManager.update
    dsimp only
    rw [if_pos hp, if_neg (not_le.mpr htm)]
    dsimp only
    rw [if_neg (show ¬ (10 ≤ s.totalRounds ∧ s.phase ≠ "game_over") from
      fun hc => absurd hc.1 (by omega))]
  · intro htm
    unfold MatchGameManager.update
    dsimp only
    rw [if_pos hp, if_pos htm]
    have hnem : ({ s with cards := (s.cards.map
        (fun c : Card => { c with flipped := false })) } :
        MatchGameManager).cards ≠ [] := by
      dsimp only
      simpa using hne
    obtain ⟨src, hsrc, hch⟩ := chooseTargetCard_none_prev
      { s with cards := (s.cards.map
          (fun c : Card => { c with flipped := false })) } k hnem hprev
    rw [hch]
    dsimp only
    rw [if_neg (fun hc => absurd hc.1 (by
      exact absurd (show 10 ≤ s.totalRounds from hc.1) (by omega)))]
    refine ⟨_, rfl, ?_, rfl, ?_⟩
    · intro c hc
      dsimp only at hc
      obtain ⟨c0, hc0, hceq⟩ := List.mem_map.mp hc
      rw [← hceq]
    · refine ⟨_, rfl, rfl, ?_⟩
      dsimp only at hsrc
      obtain ⟨c0, hc0, heq⟩ := List.mem_map.mp hsrc
      exact ⟨c0, hc0, by rw [← heq], by rw [← heq], by rw [← heq]⟩

theorem c4_witness :
    ((MatchGameManager.init 800 600 5 150 200 30 0 id).phase = "preview" ∧
     (MatchGameManager.init 800 600 5 150 200 30 0 id).cards ≠ []) ∧
    ((10 : ℚ) - (MatchGameManager.init 800 600 5 150 200 30 0 id).phaseTime
        < previewDuration →
      (MatchGameManager.init 800 600 5 150 200 30 0 id).update 10 0
        = some (MatchGameManager.init 800 600 5 150 200 30 0 id)) ∧
    (previewDuration ≤
        (10 : ℚ) - (MatchGameManager.init 800 600 5 150 200 30 0 id).phaseTime →
      ∃ sOut, (MatchGameManager.init 800 600 5 150 200 30 0 id).update 10 0
          = some sOut ∧
        (∀ c ∈ sOut.cards, c.flipped = false) ∧
        sOut.phase = "playing" ∧
        ∃ cc, sOut.currentCard = some cc ∧ cc.flipped = true ∧
          ∃ c ∈ (MatchGameManager.init 800 600 5 150 200 30 0 id).cards,
            cc.name = c.name ∧ cc.imagePath = c.imagePath ∧
            cc.backImagePath = c.backImagePath) :=
  ⟨⟨rfl, by decide⟩,
   (c4_preview_transition (MatchGameManager.init 800 600 5 150 200 30 0 id)
      10 0 rfl (by decide) rfl (by decide)).1,
   (c4_preview_transition (MatchGameManager.init 800 600 5 150 200 30 0 id)
      10 0 rfl (by decide) rfl (by decide)).2⟩

end BrawlSpec
